import Mathlib

/-!
Verification of the warehouse reconciliation front-end (LHSMOCKD).

Shallow embedding of the core logic of the repository:
  * `normalizeBarcode`            (src/lib/barcode.ts)
  * the matched/missing/unexpected partition (src/app/match/page.tsx)
  * the scan-session state machines `addItem` of the Scan page and of the
    Search page                   (src/app/scan/page.tsx)
  * the fuzzy similarity scorer `calculateSimilarity`, both the basic 1:1
    variant and the extended length-tolerant variant (src/app/scan/page.tsx)
  * the OCR post-processor `postProcessOcrText` and the `2M`+12-digit
    extraction pattern            (camera OCR page)
  * the inventory receive/dispose lifecycle (inventory receive and dispose
    pages, table `mo_lq2_inventory`).

Strings are modelled as `List Char`; JavaScript numbers appearing in the
similarity scores are modelled as `ℚ` (every score produced by the code is a
small exact rational, so no floating-point rounding is observable at the
comparisons the code performs).
-/

namespace Warehouse

/-- A (possibly not yet validated) barcode text. -/
abbrev Code := List Char

/-! ## Character classes used by the JavaScript string primitives -/

/-- Characters matched by JavaScript's `\s` class, which is also the set
trimmed by `String.prototype.trim`: TAB (9) through CR (13), space (32), NBSP
(160), U+1680, U+2000–U+200A, U+2028, U+2029, U+202F, U+205F, U+3000 and the
BOM U+FEFF. -/
def isJsWhitespace (c : Char) : Bool :=
  decide ((9 ≤ c.toNat ∧ c.toNat ≤ 13) ∨ c.toNat = 32 ∨ c.toNat = 160 ∨
    c.toNat = 5760 ∨ (8192 ≤ c.toNat ∧ c.toNat ≤ 8202) ∨ c.toNat = 8232 ∨
    c.toNat = 8233 ∨ c.toNat = 8239 ∨ c.toNat = 8287 ∨ c.toNat = 12288 ∨
    c.toNat = 65279)

/-- Characters removed by the zero-width cleanup regex of
`normalizeBarcode` (the class U+200B–U+200D plus the BOM U+FEFF). -/
def isZeroWidthChar (c : Char) : Bool :=
  decide ((8203 ≤ c.toNat ∧ c.toNat ≤ 8205) ∨ c.toNat = 65279)

/-- ASCII uppercasing, the effect of `toUpperCase()` on the barcode
alphabet: `a`–`z` (97–122) map 32 code points down, everything else is
unchanged. -/
def jsToUpper (c : Char) : Char :=
  if 97 ≤ c.toNat ∧ c.toNat ≤ 122 then Char.ofNat (c.toNat - 32) else c

/-- Test for an ASCII capital letter, the class `[A-Z]` used by the
similarity scorer's `replace(/^[A-Z]+/, '')` and by the OCR token gate. -/
def isUpperAZ (c : Char) : Bool :=
  decide (65 ≤ c.toNat ∧ c.toNat ≤ 90)

/-- JavaScript `String.prototype.trim`: drop leading and trailing `\s`
characters. -/
def jsTrim (l : List Char) : List Char :=
  ((l.dropWhile isJsWhitespace).reverse.dropWhile isJsWhitespace).reverse

/-! ## Barcode Normalizer (`normalizeBarcode`, src/lib/barcode.ts) -/

/-- Shallow embedding of `normalizeBarcode`: fail-soft on empty input, trim,
strip zero-width characters, strip all whitespace and hyphens
(`/[\s-]+/g → ""` removes exactly the characters of the class, so it is a
character filter), then uppercase. -/
def normalizeBarcode (l : List Char) : List Char :=
  if l = [] then []
  else
    let trimmed := jsTrim l
    let cleaned := trimmed.filter (fun c => !isZeroWidthChar c)
    let noSep := cleaned.filter (fun c => !(isJsWhitespace c || decide (c = '-')))
    noSep.map jsToUpper

/-! ## Allowed-prefix filter (`allowedPrefixes` / `shouldInclude`) -/

/-- JavaScript `text.startsWith(p)` on list-of-character strings. -/
def listStarts (text p : List Char) : Bool :=
  decide (text.take p.length = p)

/-- `shouldInclude`: with an empty allowed-prefix list every text passes;
otherwise the text must start with one of the allowed prefixes.  The prefix
list is the already-parsed result of `allowedPrefixes()` (split on `,`,
trimmed, empty entries dropped). -/
def shouldInclude (prefixes : List Code) (text : Code) : Bool :=
  prefixes.isEmpty || prefixes.any (fun p => listStarts text p)

/-! ## Match page partition (src/app/match/page.tsx lines 85–87) -/

/-- `matched = [...expectedSet].filter(t => scannedSet.has(t))`. -/
def matchedPartition (expectedSet scannedSet : Finset Code) : Finset Code :=
  expectedSet.filter (fun t => t ∈ scannedSet)

/-- `missing = [...expectedSet].filter(t => !scannedSet.has(t))`. -/
def missingPartition (expectedSet scannedSet : Finset Code) : Finset Code :=
  expectedSet.filter (fun t => t ∉ scannedSet)

/-- `unexpected = [...scannedSet].filter(t => !expectedSet.has(t))`. -/
def unexpectedPartition (expectedSet scannedSet : Finset Code) : Finset Code :=
  scannedSet.filter (fun t => t ∉ expectedSet)

/-! ## Scan page session (`addItem`, src/app/scan/page.tsx lines 32–56) -/

/-- In-memory session state of the Scan page: allowed prefixes, the
`autoUpload` toggle, the expected cache (`expectedCacheRef`), the `seen`
duplicate guard (`seenRef`) and the two classified lists. -/
structure ScanState where
  prefixes : List Code
  autoUpload : Bool
  expectedCache : List Code
  seen : List Code
  matched : List Code
  unmatched : List Code
deriving DecidableEq

/-- Payload of the Scan page's auto-upload upsert into `mo_ocr_results`
(`{ text, prefixes, confidence: 0 }`; only the text varies). -/
structure OcrUpsert where
  text : Code
deriving DecidableEq

/-- Shallow embedding of the Scan page `addItem`: normalize, skip on prefix
mismatch, skip on duplicate, otherwise record as seen, classify against the
expected cache, and (when `autoUpload` is set) issue the upsert.  The second
component is the persistence call issued by the invocation, if any. -/
def scanAddItem (s : ScanState) (text : List Char) : ScanState × Option OcrUpsert :=
  let normalized := normalizeBarcode text
  if shouldInclude s.prefixes normalized = false then (s, none)
  else if normalized ∈ s.seen then (s, none)
  else
    let exists_ := normalized ∈ s.expectedCache
    let s' : ScanState :=
      { s with
        seen := normalized :: s.seen
        matched := if exists_ then s.matched ++ [normalized] else s.matched
        unmatched := if exists_ then s.unmatched else s.unmatched ++ [normalized] }
    (s', if s.autoUpload then some ⟨normalized⟩ else none)

/-! ## Search page session (src/app/scan/page.tsx, second Search variant:
`addItem` lines 790–827 and `missing` line 981) -/

/-- In-memory session state of the Search page: allowed prefixes, the
expected cache and the expected display list (both loaded, normalized and
prefix-filtered by `loadExpectedCache`), the `seen` guard and the two
classified lists. -/
structure SearchState where
  prefixes : List Code
  expectedCache : List Code
  expectedList : List Code
  seen : List Code
  matched : List Code
  unmatched : List Code
deriving DecidableEq

/-- Payload of the Search page's immediate upsert into `mo_scan_items`
(`{ text, prefixes, matched }`; the prefixes field only echoes state). -/
structure ScanItemUpsert where
  text : Code
  matchedFlag : Bool
deriving DecidableEq

/-- Shallow embedding of the Search page `addItem`: normalize, skip on
prefix mismatch, skip on duplicate, otherwise record as seen, classify
against the expected cache, and always issue the `mo_scan_items` upsert. -/
def searchAddItem (s : SearchState) (text : List Char) :
    SearchState × Option ScanItemUpsert :=
  let normalized := normalizeBarcode text
  if shouldInclude s.prefixes normalized = false then (s, none)
  else if normalized ∈ s.seen then (s, none)
  else
    let exists_ := normalized ∈ s.expectedCache
    let s' : SearchState :=
      { s with
        seen := normalized :: s.seen
        matched := if exists_ then s.matched ++ [normalized] else s.matched
        unmatched := if exists_ then s.unmatched else s.unmatched ++ [normalized] }
    (s', some ⟨normalized, decide exists_⟩)

/-- Line 981: `const missing = expectedList.filter(text => !seenRef.current.has(text))`. -/
def missingView (s : SearchState) : List Code :=
  s.expectedList.filter (fun t => decide (t ∉ s.seen))

/-- Run a sequence of `addItem` calls (scan events in arrival order). -/
def applySearchScans (s : SearchState) (texts : List (List Char)) : SearchState :=
  texts.foldl (fun st t => (searchAddItem st t).1) s

/-! ## Similarity scorer (`calculateSimilarity`)

The Search page has two variants: the basic 1:1 variant (last-3-digit
anchor, thresholds ≤ 2/≤ 1, no length tolerance) and the extended variant
(last-4-digit anchor on length-truncated suffixes, thresholds ≤ 3, 0.7
clamp, plus a substring-alignment fallback).  Both strip the alphabetic
prefix with `replace(/^[A-Z]+/, '')` after uppercasing. -/

/-- Count of positions at which two strings differ, over their common
length (the JavaScript loops run over `minLen`). -/
def hamming (a b : List Char) : Nat :=
  (a.zip b).countP (fun p => decide (p.1 ≠ p.2))

/-- JavaScript `s.slice(-k)` for `0 ≤ k ≤ s.length`: the last `k`
characters, except that `slice(-0)` is `slice(0)`, the whole string. -/
def jsSliceLast (l : List Char) (k : Nat) : List Char :=
  if k = 0 then l else l.drop (l.length - k)

/-- JavaScript `s.slice(0, -k)`: everything but the last `k` characters,
except that `slice(0, -0)` is `slice(0, 0)`, the empty string. -/
def jsDropLastK (l : List Char) (k : Nat) : List Char :=
  if k = 0 then [] else l.take (l.length - k)

/-- The numeric part of a code: uppercase, then strip the leading run of
capital letters (`replace(/^[A-Z]+/, '')`). -/
def numericPart (text : List Char) : List Char :=
  (text.map jsToUpper).dropWhile isUpperAZ

/-- `targetLen = Math.min(num1.length, num2.length, 14)` of the extended
variant. -/
def targetLen (a b : List Char) : Nat :=
  min (min a.length b.length) 14

/-- Which rule of the extended scorer produced a result, together with the
numbers that appear in its `details` message. -/
inductive SimRule where
  | suffixA (checkLen diff lenDiff : Nat)
  | suffixB (checkLen lenDiff : Nat)
  | equalLen (diff lenDiff : Nat)
  | substr (maxMatches shorterLen lenDiff : Nat)
deriving DecidableEq

/-- Result of the extended scorer: the `score` field and the data of the
`details` message. -/
structure SimResult where
  score : ℚ
  rule : SimRule
deriving DecidableEq

/-- Rule 1 of the extended scorer: if the last `checkLen` (= min 4
`targetLen`, required ≥ 3) digits of the length-truncated suffixes agree,
count differences over the remaining front parts; a difference ≤ 3 with a
non-empty front scores `max 0.7 (1 - diff / maxLen)`, else a difference ≤ 1
(only possible with an empty front) scores 0.9. -/
def suffixStage (a b : List Char) : Option SimResult :=
  let tl := targetLen a b
  let cl := min 4 tl
  let n1 := jsSliceLast a tl
  let n2 := jsSliceLast b tl
  if 3 ≤ cl then
    if jsSliceLast n1 cl = jsSliceLast n2 cl then
      let p1 := jsDropLastK n1 cl
      let p2 := jsDropLastK n2 cl
      let maxLen := max p1.length p2.length
      let d := hamming p1 p2 + Nat.dist p1.length p2.length
      if d ≤ 3 ∧ 0 < maxLen then
        some ⟨max (7/10) (1 - (d : ℚ) / ((max maxLen 1 : ℕ) : ℚ)),
          .suffixA cl d (Nat.dist a.length b.length)⟩
      else if d ≤ 1 then
        some ⟨9/10, .suffixB cl (Nat.dist a.length b.length)⟩
      else none
    else none
  else none

/-- Rule 2 of the extended scorer: equal (truncated) lengths and a positive
difference ≤ 3 score `max 0.7 (1 - diff / length)`. -/
def equalLenStage (a b : List Char) : Option SimResult :=
  let tl := targetLen a b
  let n1 := jsSliceLast a tl
  let n2 := jsSliceLast b tl
  if n1.length = n2.length ∧ 0 < n1.length then
    let d := hamming n1 n2
    if d ≤ 3 ∧ 0 < d then
      some ⟨max (7/10) (1 - (d : ℚ) / (n1.length : ℚ)),
        .equalLen d (Nat.dist a.length b.length)⟩
    else none
  else none

/-- The shorter of the two numeric parts (ties resolved as in the source:
`num1.length < num2.length ? num1 : num2`). -/
def shorterNum (a b : List Char) : List Char :=
  if a.length < b.length then a else b

/-- The longer of the two numeric parts. -/
def longerNum (a b : List Char) : List Char :=
  if a.length < b.length then b else a

/-- JavaScript `haystack.includes(needle)` (contiguous substring test). -/
def listContains (haystack needle : List Char) : Bool :=
  (List.range (haystack.length + 1)).any
    (fun off => decide ((haystack.drop off).take needle.length = needle))

/-- Character matches of `shorter` against `longer` at a given offset. -/
def matchesAt (shorter longer : List Char) (off : Nat) : Nat :=
  (shorter.zip (longer.drop off)).countP (fun p => decide (p.1 = p.2))

/-- Best match count over all offsets `0 ≤ off ≤ longer.length - shorter.length`. -/
def maxAlignMatches (shorter longer : List Char) : Nat :=
  ((List.range (longer.length - shorter.length + 1)).map
    (matchesAt shorter longer)).foldl max 0

/-- `similarity = maxMatches / shorter.length` of the alignment fallback
(division by zero yields 0 here; in the source it yields `NaN`, and both
fail the `≥ 0.85` acceptance test, so the outcomes agree). -/
def alignRatio (shorter longer : List Char) : ℚ :=
  (maxAlignMatches shorter longer : ℚ) / ((shorter.length : ℕ) : ℚ)

/-- Rule 3 of the extended scorer: for numeric parts of different lengths,
and only when the shorter is a substring of the longer or has length ≥ 10,
align the shorter at every offset and accept the best match ratio when it
is at least 0.85. -/
def substrStage (a b : List Char) : Option SimResult :=
  if a.length ≠ b.length then
    if listContains (longerNum a b) (shorterNum a b) = true
        ∨ 10 ≤ (shorterNum a b).length then
      if (85/100 : ℚ) ≤ alignRatio (shorterNum a b) (longerNum a b) then
        some ⟨alignRatio (shorterNum a b) (longerNum a b),
          .substr (maxAlignMatches (shorterNum a b) (longerNum a b))
            (shorterNum a b).length (Nat.dist a.length b.length)⟩
      else none
    else none
  else none

/-- The extended `calculateSimilarity` (Search page, lines 986–1084): the
three rules are tried in order, first qualifying rule wins. -/
def calcSimilarity (text1 text2 : List Char) : Option SimResult :=
  let num1 := numericPart text1
  let num2 := numericPart text2
  match suffixStage num1 num2 with
  | some r => some r
  | none =>
    match equalLenStage num1 num2 with
    | some r => some r
    | none => substrStage num1 num2

/-- Which rule of the basic 1:1 scorer produced a result. -/
inductive SimRuleBasic where
  | suffix3 (diff : Nat)
  | suffix3Single
  | equalLen (diff : Nat)
deriving DecidableEq

/-- Result of the basic 1:1 scorer. -/
structure SimResultBasic where
  score : ℚ
  rule : SimRuleBasic
deriving DecidableEq

/-- Rule 1 of the basic scorer (lines 449–481): last 3 digits must agree;
the front parts may have different lengths, differences count mismatches
over the common length plus the length difference. -/
def suffixStageBasic (a b : List Char) : Option SimResultBasic :=
  if 3 ≤ a.length ∧ 3 ≤ b.length then
    if jsSliceLast a 3 = jsSliceLast b 3 then
      let p1 := jsDropLastK a 3
      let p2 := jsDropLastK b 3
      let maxLen := max p1.length p2.length
      let d := hamming p1 p2 + Nat.dist p1.length p2.length
      if d ≤ 2 ∧ 0 < maxLen then
        some ⟨1 - (d : ℚ) / ((maxLen : ℕ) : ℚ), .suffix3 d⟩
      else if d ≤ 1 then
        some ⟨9/10, .suffix3Single⟩
      else none
    else none
  else none

/-- Rule 2 of the basic scorer (lines 484–495): same length and a positive
difference ≤ 2 score `1 - diff / length` (no 0.7 clamp). -/
def equalLenStageBasic (a b : List Char) : Option SimResultBasic :=
  if a.length = b.length ∧ 0 < a.length then
    let d := hamming a b
    if d ≤ 2 ∧ 0 < d then
      some ⟨1 - (d : ℚ) / (a.length : ℚ), .equalLen d⟩
    else none
  else none

/-- The basic 1:1 `calculateSimilarity` (lines 440–498). -/
def calcSimilarityBasic (text1 text2 : List Char) : Option SimResultBasic :=
  let num1 := numericPart text1
  let num2 := numericPart text2
  match suffixStageBasic num1 num2 with
  | some r => some r
  | none => equalLenStageBasic num1 num2

/-! ## OCR post-processor (`postProcessOcrText`, camera OCR pages)

The global regex replaces are modelled as left-to-right non-overlapping
scans.  The scanners consume at least one input character per step, so an
explicit fuel equal to the input length makes them total while reproducing
the JavaScript scan exactly. -/

/-- Scanner for `(\d)L(\d) → $1 D $2`: a three-character window; on a match
all three characters are consumed. -/
def replAdjGo (L D : Char) : Nat → List Char → List Char
  | 0, l => l
  | _ + 1, [] => []
  | fuel + 1, c0 :: rest =>
    match rest with
    | c1 :: c2 :: rest2 =>
      if c0.isDigit ∧ c1 = L ∧ c2.isDigit then c0 :: D :: c2 :: replAdjGo L D fuel rest2
      else c0 :: replAdjGo L D fuel (c1 :: c2 :: rest2)
    | _ => c0 :: rest

/-- Global replace of `(\d)L(\d)` by `$1 D $2`. -/
def replAdj (L D : Char) (l : List Char) : List Char :=
  replAdjGo L D l.length l

/-- Scanner for `L(\d{2,}) → D $1`: the digit run is matched greedily and
consumed together with the letter. -/
def replBeforeGo (L D : Char) : Nat → List Char → List Char
  | 0, l => l
  | _ + 1, [] => []
  | fuel + 1, c :: rest =>
    if c = L ∧ 2 ≤ (rest.takeWhile Char.isDigit).length then
      D :: (rest.takeWhile Char.isDigit ++ replBeforeGo L D fuel (rest.dropWhile Char.isDigit))
    else c :: replBeforeGo L D fuel rest

/-- Global replace of `L(\d{2,})` by `D $1`. -/
def replBefore (L D : Char) (l : List Char) : List Char :=
  replBeforeGo L D l.length l

/-- Scanner for `(\d{2,})L → $1 D`: at the start of a digit run the whole
run is taken greedily; the match exists exactly when the run has length ≥ 2
and the character after it is `L`. -/
def replAfterGo (L D : Char) : Nat → List Char → List Char
  | 0, l => l
  | _ + 1, [] => []
  | fuel + 1, c :: rest =>
    let run := (c :: rest).takeWhile Char.isDigit
    let after := (c :: rest).dropWhile Char.isDigit
    if 2 ≤ run.length ∧ after.head? = some L then
      run ++ D :: replAfterGo L D fuel after.tail
    else c :: replAfterGo L D fuel rest

/-- Global replace of `(\d{2,})L` by `$1 D`. -/
def replAfter (L D : Char) (l : List Char) : List Char :=
  replAfterGo L D l.length l

/-- Global replace of `B(?=\d)` by `8`: the lookahead does not consume, and
each match is a single character tested against the original string, so the
replacement is pointwise in the following character. -/
def replBLookahead : List Char → List Char
  | [] => []
  | [c] => [c]
  | c :: d :: rest => (if c = 'B' ∧ d.isDigit then '8' else c) :: replBLookahead (d :: rest)

/-- Helper for `replBLookbehind`: `prev` is the preceding character of the
original string. -/
def replBLookbehindGo (prev : Char) : List Char → List Char
  | [] => []
  | c :: rest => (if prev.isDigit ∧ c = 'B' then '8' else c) :: replBLookbehindGo c rest

/-- Global replace of `(?<=\d)B` by `8`: single-character matches tested
against the original string, pointwise in the preceding character. -/
def replBLookbehind : List Char → List Char
  | [] => []
  | c :: rest => c :: replBLookbehindGo c rest

/-- The heuristic gate `/^[A-Z0-9]{6,}$/` for the final aggressive B→8
pass. -/
def gateToken (l : List Char) : Bool :=
  decide (6 ≤ l.length) && l.all (fun c => isUpperAZ c || c.isDigit)

/-- Shallow embedding of `postProcessOcrText`: the nine contextual
digit-substitution rules for B/8, S/5, O/0 in source order, then the gated
aggressive B→8 pass (`B(?=\d)` first, then `(?<=\d)B`). -/
def postProcessOcrText (l : List Char) : List Char :=
  if l = [] then l
  else
    let p1 := replAdj 'B' '8' l
    let p2 := replBefore 'B' '8' p1
    let p3 := replAfter 'B' '8' p2
    let p4 := replAdj 'S' '5' p3
    let p5 := replBefore 'S' '5' p4
    let p6 := replAfter 'S' '5' p5
    let p7 := replAdj 'O' '0' p6
    let p8 := replBefore 'O' '0' p7
    let p9 := replAfter 'O' '0' p8
    if gateToken p9 then replBLookbehind (replBLookahead p9) else p9

/-- Whole-token test for the fixed extraction pattern: `2M` followed by
exactly 12 digits (total length 14), as enforced by the camera OCR page's
`match(/2M\d{12}/gi)` plus its `length === 14 && startsWith("2M")` filter. -/
def matches2M14 (l : List Char) : Bool :=
  decide (l.length = 14) && decide (l.take 2 = ['2', 'M']) && (l.drop 2).all Char.isDigit

/-! ## Inventory lifecycle (receive page and dispose page, table
`mo_lq2_inventory`) -/

/-- Outcome of one receive-page `addItem` call, named after the status
message the page shows. -/
inductive ReceiveOutcome where
  | skippedEmpty
  | skippedPrefix
  | alreadyScanned
  | alreadyReceivedDisposed
  | alreadyReceived
  | received
deriving DecidableEq

/-- Outcome of one dispose-page `addItem` call.  `alreadyDisposedGuard` is
the session `seen` check ("Already disposed"); `notReceivedOrDisposed` is
the failed active-record lookup ("Not received or already disposed"). -/
inductive DisposeOutcome where
  | skippedEmpty
  | skippedPrefix
  | alreadyDisposedGuard
  | notReceivedOrDisposed
  | disposed
deriving DecidableEq

/-- One row of `mo_lq2_inventory`.  `id` is the serial key; rows are never
deleted by the modelled flows, so `table.length` is a fresh id. -/
structure InvRecord where
  id : Nat
  barcode : Code
  receivedAt : Nat
  disposedAt : Option Nat
deriving DecidableEq

/-- The fixed allowed-prefix configuration `"1M,2M"` of both inventory
pages, already parsed. -/
def inventoryPrefixes : List Code := [['1', 'M'], ['2', 'M']]

/-- Shallow embedding of the receive page `addItem`: empty and trim checks,
normalization, prefix filter, session duplicate guard, then the
active-record lookup (`.eq("barcode", …).single()`) deciding between the
"already received (and disposed)" errors and a fresh insert with
`received_at = now`. -/
def receiveStep (seen : List Code) (table : List InvRecord) (now : Nat)
    (text : List Char) : ReceiveOutcome × List Code × List InvRecord :=
  if text = [] ∨ jsTrim text = [] then (.skippedEmpty, seen, table)
  else
    let normalized := normalizeBarcode text
    if normalized = [] then (.skippedEmpty, seen, table)
    else if shouldInclude inventoryPrefixes normalized = false then
      (.skippedPrefix, seen, table)
    else if normalized ∈ seen then (.alreadyScanned, seen, table)
    else
      let seen' := normalized :: seen
      match table.find? (fun r => decide (r.barcode = normalized)) with
      | some r =>
        if r.disposedAt.isSome then (.alreadyReceivedDisposed, seen', table)
        else (.alreadyReceived, seen', table)
      | none =>
        (.received, seen', ⟨table.length, normalized, now, none⟩ :: table)

/-- Shallow embedding of the dispose page `addItem`: empty and trim checks,
normalization, prefix filter, session duplicate guard, then the
active-record lookup (`.eq("barcode", …).is("disposed_at", null).single()`);
on success `disposed_at` is set on the matching record and the code is added
to `seen`. -/
def disposeStep (seen : List Code) (table : List InvRecord) (now : Nat)
    (text : List Char) : DisposeOutcome × List Code × List InvRecord :=
  if text = [] ∨ jsTrim text = [] then (.skippedEmpty, seen, table)
  else
    let normalized := normalizeBarcode text
    if normalized = [] then (.skippedEmpty, seen, table)
    else if shouldInclude inventoryPrefixes normalized = false then
      (.skippedPrefix, seen, table)
    else if normalized ∈ seen then (.alreadyDisposedGuard, seen, table)
    else
      match table.find? (fun r => decide (r.barcode = normalized) && r.disposedAt.isNone) with
      | none => (.notReceivedOrDisposed, seen, table)
      | some r =>
        (.disposed, normalized :: seen,
          table.map (fun q => if q.id = r.id then { q with disposedAt := some now } else q))

/-! ## Helper lemmas about the character primitives -/

theorem toNat_ofNat_lt {n : Nat} (h : n < 55296) : (Char.ofNat n).toNat = n := by
  unfold Char.ofNat
  rw [dif_pos (Or.inl h)]
  rfl

theorem jsToUpper_cases (c : Char) :
    jsToUpper c = c ∨ (65 ≤ (jsToUpper c).toNat ∧ (jsToUpper c).toNat ≤ 90) := by
  unfold jsToUpper
  by_cases h : 97 ≤ c.toNat ∧ c.toNat ≤ 122
  · right
    rw [if_pos h, toNat_ofNat_lt (by omega)]
    omega
  · left
    rw [if_neg h]

theorem jsToUpper_fixed_of_range {c : Char} (h1 : 65 ≤ c.toNat) (h2 : c.toNat ≤ 90) :
    jsToUpper c = c := by
  unfold jsToUpper
  rw [if_neg (by omega)]

theorem jsToUpper_idem (c : Char) : jsToUpper (jsToUpper c) = jsToUpper c := by
  rcases jsToUpper_cases c with h | ⟨h1, h2⟩
  · rw [h, h]
  · exact jsToUpper_fixed_of_range h1 h2

theorem ws_false_of_range {c : Char} (h1 : 65 ≤ c.toNat) (h2 : c.toNat ≤ 90) :
    isJsWhitespace c = false := by
  simp only [isJsWhitespace, decide_eq_false_iff_not]
  omega

theorem zw_false_of_range {c : Char} (h1 : 65 ≤ c.toNat) (h2 : c.toNat ≤ 90) :
    isZeroWidthChar c = false := by
  simp only [isZeroWidthChar, decide_eq_false_iff_not]
  omega

theorem ne_hyphen_of_range {c : Char} (h1 : 65 ≤ c.toNat) (_h2 : c.toNat ≤ 90) :
    c ≠ '-' := by
  intro h
  rw [h] at h1
  have : ('-').toNat = 45 := rfl
  omega

/-- Every character of a normalized barcode is whitespace-free,
zero-width-free, not a hyphen, and fixed by uppercasing. -/
theorem mem_normalizeBarcode {l : List Char} {c : Char} (h : c ∈ normalizeBarcode l) :
    isJsWhitespace c = false ∧ isZeroWidthChar c = false ∧ c ≠ '-' ∧ jsToUpper c = c := by
  unfold normalizeBarcode at h
  by_cases h0 : l = []
  · rw [if_pos h0] at h
    exact absurd h (List.not_mem_nil c)
  · rw [if_neg h0] at h
    simp only [List.mem_map] at h
    obtain ⟨d, hd, rfl⟩ := h
    have hfix : jsToUpper (jsToUpper d) = jsToUpper d := jsToUpper_idem d
    obtain ⟨hd2, hp2⟩ := List.mem_filter.mp hd
    obtain ⟨_, hp1⟩ := List.mem_filter.mp hd2
    have hzw : isZeroWidthChar d = false := by
      simpa using hp1
    have hws : isJsWhitespace d = false ∧ d ≠ '-' := by
      constructor
      · by_contra hcon
        simp only [Bool.not_eq_false] at hcon
        simp [hcon] at hp2
      · intro hcon
        simp [hcon] at hp2
    rcases jsToUpper_cases d with heq | ⟨h1, h2⟩
    · rw [heq]
      exact ⟨hws.1, hzw, hws.2, heq ▸ hfix⟩
    · exact ⟨ws_false_of_range h1 h2, zw_false_of_range h1 h2,
        ne_hyphen_of_range h1 h2, hfix⟩

theorem dropWhile_eq_self_of_all {p : Char → Bool} {l : List Char}
    (h : ∀ c ∈ l, p c = false) : l.dropWhile p = l := by
  cases l with
  | nil => rfl
  | cons c rest =>
    rw [List.dropWhile_cons, if_neg]
    simp [h c (List.mem_cons_self c rest)]

theorem map_eq_self_of_all {f : Char → Char} {l : List Char}
    (h : ∀ c ∈ l, f c = c) : l.map f = l := by
  induction l with
  | nil => rfl
  | cons c rest ih =>
    simp only [List.map_cons, h c (List.mem_cons_self c rest), List.cons.injEq, true_and]
    exact ih (fun d hd => h d (List.mem_cons_of_mem c hd))

theorem jsTrim_eq_self_of_all {l : List Char}
    (h : ∀ c ∈ l, isJsWhitespace c = false) : jsTrim l = l := by
  unfold jsTrim
  rw [dropWhile_eq_self_of_all h,
    dropWhile_eq_self_of_all (fun c hc => h c (List.mem_reverse.mp hc)),
    List.reverse_reverse]

/-- Claim C7: the barcode normalizer is idempotent: for every raw string
`s`, `normalizeBarcode (normalizeBarcode s) = normalizeBarcode s`. -/
theorem normalizeBarcode_idem (s : List Char) :
    normalizeBarcode (normalizeBarcode s) = normalizeBarcode s := by
  by_cases h0 : normalizeBarcode s = []
  · rw [h0]
    rfl
  · have key := fun c hc => mem_normalizeBarcode (l := s) (c := c) hc
    conv_lhs => rw [normalizeBarcode]
    rw [if_neg h0]
    rw [jsTrim_eq_self_of_all (fun c hc => (key c hc).1)]
    show List.map jsToUpper
        (List.filter (fun c => !(isJsWhitespace c || decide (c = '-')))
          (List.filter (fun c => !isZeroWidthChar c) (normalizeBarcode s))) =
      normalizeBarcode s
    rw [show List.filter (fun c => !isZeroWidthChar c) (normalizeBarcode s) =
        normalizeBarcode s from
      List.filter_eq_self.mpr (fun c hc => by simp [(key c hc).2.1])]
    rw [List.filter_eq_self.mpr (fun c hc => by simp [(key c hc).1, (key c hc).2.2.1])]
    exact map_eq_self_of_all (fun c hc => (key c hc).2.2.2)

/-- Claim C8: applying the OCR post-processor to the raw line
`"2M00000000000B"` yields `"2M000000000008"` (the trailing `B` embedded in
the digit run is replaced by `8` — by the `(\d{2,})B` rule, whose effect the
gated pass would also produce), and the resulting string matches the fixed
`2M`-plus-12-digits extraction pattern. -/
theorem c8_postprocess_trailing_b :
    postProcessOcrText "2M00000000000B".toList = "2M000000000008".toList ∧
    matches2M14 "2M000000000008".toList = true := by
  refine ⟨?_, ?_⟩ <;> decide

/-- Counterexample to claim C9: the second `receive` of the same code in
the same page session is rejected by the session `seen` guard with the
"Already scanned" outcome, not with the `AlreadyReceived` error (the
database check is never reached).  The last conjunct certifies that the
state fed to the second call is exactly what the first call produced, and
that the table is left unchanged. -/
theorem c9_counterexample :
    (receiveStep [['2', 'M', '1']] [⟨0, ['2', 'M', '1'], 0, none⟩] 1 "2M1".toList).1 =
      ReceiveOutcome.alreadyScanned ∧
    ReceiveOutcome.alreadyScanned ≠ ReceiveOutcome.alreadyReceived ∧
    (receiveStep [['2', 'M', '1']] [⟨0, ['2', 'M', '1'], 0, none⟩] 1 "2M1".toList).2.2 =
      [⟨0, ['2', 'M', '1'], 0, none⟩] ∧
    receiveStep [] [] 0 "2M1".toList =
      (ReceiveOutcome.received, [['2', 'M', '1']], [⟨0, ['2', 'M', '1'], 0, none⟩]) := by
  refine ⟨?_, ?_, ?_, ?_⟩ <;> decide

/-- Amended claim C9: within one page session the second `receive` of the
same code fails via the session duplicate guard ("Already scanned"), and
only a fresh session (empty `seen`) reaches the database check and fails
with `AlreadyReceived`; in both cases no second row is inserted.  Likewise
the second `dispose` in the same session fails via the duplicate guard
("Already disposed"), and a fresh session fails with `NotReceived` ("Not
received or already disposed") because no active record exists; in both
cases the table is unchanged. -/
theorem c9_amended :
    receiveStep [] [] 0 "2M1".toList =
      (ReceiveOutcome.received, [['2', 'M', '1']], [⟨0, ['2', 'M', '1'], 0, none⟩]) ∧
    receiveStep [['2', 'M', '1']] [⟨0, ['2', 'M', '1'], 0, none⟩] 1 "2M1".toList =
      (ReceiveOutcome.alreadyScanned, [['2', 'M', '1']], [⟨0, ['2', 'M', '1'], 0, none⟩]) ∧
    receiveStep [] [⟨0, ['2', 'M', '1'], 0, none⟩] 1 "2M1".toList =
      (ReceiveOutcome.alreadyReceived, [['2', 'M', '1']], [⟨0, ['2', 'M', '1'], 0, none⟩]) ∧
    disposeStep [] [⟨0, ['2', 'M', '1'], 0, none⟩] 2 "2M1".toList =
      (DisposeOutcome.disposed, [['2', 'M', '1']], [⟨0, ['2', 'M', '1'], 0, some 2⟩]) ∧
    disposeStep [['2', 'M', '1']] [⟨0, ['2', 'M', '1'], 0, some 2⟩] 3 "2M1".toList =
      (DisposeOutcome.alreadyDisposedGuard, [['2', 'M', '1']], [⟨0, ['2', 'M', '1'], 0, some 2⟩]) ∧
    disposeStep [] [⟨0, ['2', 'M', '1'], 0, some 2⟩] 3 "2M1".toList =
      (DisposeOutcome.notReceivedOrDisposed, [], [⟨0, ['2', 'M', '1'], 0, some 2⟩]) := by
  refine ⟨?_, ?_, ?_, ?_, ?_, ?_⟩ <;> decide

/-- Claim C1: relative to a fixed expected set and scanned set, every known
code — every element of their union — lies in exactly one of the three
partition classes matched, missing, unexpected: never zero and never more
than one. -/
theorem partition_exactly_one (E S : Finset Code) (c : Code) (h : c ∈ E ∪ S) :
    (c ∈ matchedPartition E S ∧ c ∉ missingPartition E S ∧ c ∉ unexpectedPartition E S) ∨
    (c ∉ matchedPartition E S ∧ c ∈ missingPartition E S ∧ c ∉ unexpectedPartition E S) ∨
    (c ∉ matchedPartition E S ∧ c ∉ missingPartition E S ∧ c ∈ unexpectedPartition E S) := by
  rw [Finset.mem_union] at h
  by_cases hE : c ∈ E <;> by_cases hS : c ∈ S <;>
    simp [matchedPartition, missingPartition, unexpectedPartition, Finset.mem_filter,
      hE, hS] at h ⊢

/-- Witness for C1 at a concrete instance: expected `{"2M"}`, scanned `∅`,
code `"2M"` — the code is known and falls in exactly one class (missing). -/
theorem partition_exactly_one_witness :
    (['2', 'M'] ∈ ({['2', 'M']} : Finset Code) ∪ (∅ : Finset Code)) ∧
    ((['2', 'M'] ∈ matchedPartition {['2', 'M']} ∅ ∧
        ['2', 'M'] ∉ missingPartition {['2', 'M']} ∅ ∧
        ['2', 'M'] ∉ unexpectedPartition {['2', 'M']} ∅) ∨
      (['2', 'M'] ∉ matchedPartition {['2', 'M']} ∅ ∧
        ['2', 'M'] ∈ missingPartition {['2', 'M']} ∅ ∧
        ['2', 'M'] ∉ unexpectedPartition {['2', 'M']} ∅) ∨
      (['2', 'M'] ∉ matchedPartition {['2', 'M']} ∅ ∧
        ['2', 'M'] ∉ missingPartition {['2', 'M']} ∅ ∧
        ['2', 'M'] ∈ unexpectedPartition {['2', 'M']} ∅)) :=
  ⟨by decide, partition_exactly_one _ _ _ (by decide)⟩

theorem searchAddItem_expectedList (s : SearchState) (t : List Char) :
    ((searchAddItem s t).1).expectedList = s.expectedList := by
  unfold searchAddItem
  dsimp only
  split
  · rfl
  split
  · rfl
  · rfl

theorem applySearchScans_expectedList (s : SearchState) (texts : List (List Char)) :
    (applySearchScans s texts).expectedList = s.expectedList := by
  induction texts generalizing s with
  | nil => rfl
  | cons t ts ih =>
    show (applySearchScans ((searchAddItem s t).1) ts).expectedList = s.expectedList
    rw [ih, searchAddItem_expectedList]

/-- Claim C2: after any sequence of `addItem` calls in a Search-page
session, the recomputed `missing` view equals the set difference of the
expected list (loaded at session start, stored normalized, and untouched by
the scans — first conjunct) and the `seen` set: a code is in `missing` iff
it is in the initial expected list and its value is not in the seen set. -/
theorem missing_eq_expected_minus_seen (s0 : SearchState) (texts : List (List Char))
    (c : Code) :
    (applySearchScans s0 texts).expectedList = s0.expectedList ∧
    (c ∈ missingView (applySearchScans s0 texts) ↔
      c ∈ s0.expectedList ∧ c ∉ (applySearchScans s0 texts).seen) := by
  refine ⟨applySearchScans_expectedList s0 texts, ?_⟩
  unfold missingView
  rw [applySearchScans_expectedList s0 texts]
  simp [List.mem_filter]

/-- Counterexample to claim C3: with an empty allowed-prefix list (the user
cleared the prefixes input, so `allowedPrefixes()` is `[]` and
`shouldInclude` accepts everything), an input that normalizes to the empty
string is not a no-op: `addItem " "` records the empty string as seen,
appends it to `unmatched`, and (with auto-upload on) issues a persistence
call. -/
theorem c3_counterexample :
    normalizeBarcode " ".toList = [] ∧
    scanAddItem ⟨[], true, [], [], [], []⟩ " ".toList =
      (⟨[], true, [], [[]], [], [[]]⟩, some ⟨[]⟩) ∧
    (⟨[], true, [], [[]], [], [[]]⟩ : ScanState) ≠ ⟨[], true, [], [], [], []⟩ := by
  refine ⟨?_, ?_, ?_⟩ <;> decide

/-- Amended claim C3: `addItem` is a no-op — the state is returned
unchanged and no persistence call is issued — whenever the normalized input
fails the allowed-prefix filter or is already in the seen set; an input
normalizing to the empty string is additionally a no-op whenever the
allowed-prefix list is non-empty (its entries, produced by
`allowedPrefixes()`, are never empty, so the empty string fails the
filter).  With an empty allowed-prefix list an empty normalization is
processed like any other code. -/
theorem scanAddItem_noop (s : ScanState) (text : List Char)
    (h : shouldInclude s.prefixes (normalizeBarcode text) = false
      ∨ normalizeBarcode text ∈ s.seen
      ∨ (s.prefixes ≠ [] ∧ (∀ p ∈ s.prefixes, p ≠ []) ∧ normalizeBarcode text = [])) :
    scanAddItem s text = (s, none) := by
  have hskip : shouldInclude s.prefixes (normalizeBarcode text) = false ∨
      normalizeBarcode text ∈ s.seen := by
    rcases h with h | h | ⟨hne, hps, hempty⟩
    · exact Or.inl h
    · exact Or.inr h
    · left
      rw [hempty]
      have hall : s.prefixes.any (fun q => listStarts [] q) = false := by
        rw [List.any_eq_false]
        intro q hq
        simp only [listStarts, List.take_nil, decide_eq_true_eq]
        exact fun he => hps q hq he.symm
      unfold shouldInclude
      rw [hall]
      cases hp : s.prefixes with
      | nil => exact absurd hp hne
      | cons p ps => rfl
  unfold scanAddItem
  rcases hskip with h | h
  · rw [if_pos h]
  · by_cases h1 : shouldInclude s.prefixes (normalizeBarcode text) = false
    · rw [if_pos h1]
    · rw [if_neg h1, if_pos h]

/-- Witness for the amended C3 at a concrete instance: the duplicate case
(the code `"2M1"` is already in `seen`) is a no-op. -/
theorem scanAddItem_noop_witness :
    (shouldInclude ([['2', 'M']] : List Code)
        (normalizeBarcode "2M1".toList) = false
      ∨ normalizeBarcode "2M1".toList ∈ [['2', 'M', '1']]
      ∨ (([['2', 'M']] : List Code) ≠ [] ∧
          (∀ p ∈ ([['2', 'M']] : List Code), p ≠ []) ∧
          normalizeBarcode "2M1".toList = [])) ∧
    scanAddItem ⟨[['2', 'M']], false, [], [['2', 'M', '1']], [['2', 'M', '1']], []⟩
        "2M1".toList =
      (⟨[['2', 'M']], false, [], [['2', 'M', '1']], [['2', 'M', '1']], []⟩, none) :=
  ⟨by decide, scanAddItem_noop _ _ (by decide)⟩

/-! ## Similarity scorer: concrete scenario (C4) -/

/-- Claim C4: for `"2M000000000123"` vs `"2M000000000124"` (equal length,
differing only in the final digit, so the last-digits suffix rule does not
apply) the scorer returns via the equal-length Hamming rule with exactly
one differing position, and the similarity 13/14 ≈ 0.9286 is approximately
0.93 (within 0.01) and at or above the 0.7 proposal threshold.  The
prefix-stripping regex `/^[A-Z]+/` removes nothing here because the code
starts with the digit `2`, so the compared strings are the full
14-character codes.  Both scorer variants agree. -/
theorem c4_equal_length_scenario :
    calcSimilarity "2M000000000123".toList "2M000000000124".toList =
      some ⟨13/14, .equalLen 1 0⟩ ∧
    calcSimilarityBasic "2M000000000123".toList "2M000000000124".toList =
      some ⟨13/14, .equalLen 1⟩ ∧
    (7/10 : ℚ) ≤ 13/14 ∧ |(13/14 : ℚ) - 93/100| < 1/100 := by
  refine ⟨?_, ?_, by norm_num, ?_⟩
  · rw [show calcSimilarity "2M000000000123".toList "2M000000000124".toList =
        some ⟨max ((7:ℚ)/10) (1 - ((1:ℕ):ℚ)/((14:ℕ):ℚ)), .equalLen 1 0⟩ from rfl]
    simp only [Option.some.injEq, SimResult.mk.injEq]
    norm_num
  · rw [show calcSimilarityBasic "2M000000000123".toList "2M000000000124".toList =
        some ⟨1 - ((1:ℕ):ℚ)/((14:ℕ):ℚ), .equalLen 1⟩ from rfl]
    simp only [Option.some.injEq, SimResultBasic.mk.injEq]
    norm_num
  · rw [abs_sub_lt_iff]
    constructor <;> norm_num

/-! ## Similarity scorer: score range (C10) -/

theorem foldl_max_le {l : List ℕ} {bound : ℕ} (acc : ℕ) (hacc : acc ≤ bound)
    (h : ∀ x ∈ l, x ≤ bound) : l.foldl max acc ≤ bound := by
  induction l generalizing acc with
  | nil => exact hacc
  | cons x xs ih =>
    exact ih (max acc x) (max_le hacc (h x (List.mem_cons_self x xs)))
      (fun y hy => h y (List.mem_cons_of_mem x hy))

theorem maxAlignMatches_le (shorter longer : List Char) :
    maxAlignMatches shorter longer ≤ shorter.length := by
  unfold maxAlignMatches
  apply foldl_max_le 0 (Nat.zero_le _)
  intro x hx
  simp only [List.mem_map] at hx
  obtain ⟨off, _, rfl⟩ := hx
  unfold matchesAt
  calc (shorter.zip (longer.drop off)).countP (fun p => decide (p.1 = p.2))
      ≤ (shorter.zip (longer.drop off)).length := List.countP_le_length _
    _ ≤ shorter.length := by
        rw [List.length_zip]
        exact Nat.min_le_left _ _

theorem one_sub_div_le_one (d m : ℕ) : (1 : ℚ) - (d : ℚ) / (m : ℚ) ≤ 1 := by
  have hnn : (0 : ℚ) ≤ (d : ℚ) / (m : ℚ) := div_nonneg (by positivity) (by positivity)
  linarith

theorem suffixStage_score_bounds {a b : List Char} {r : SimResult}
    (h : suffixStage a b = some r) : (7/10 : ℚ) ≤ r.score ∧ r.score ≤ 1 := by
  unfold suffixStage at h
  dsimp only at h
  split at h
  · split at h
    · split at h
      · injection h with h'
        subst h'
        exact ⟨le_max_left _ _, max_le (by norm_num) (one_sub_div_le_one _ _)⟩
      · split at h
        · injection h with h'
          subst h'
          norm_num
        · exact absurd h (by simp)
    · exact absurd h (by simp)
  · exact absurd h (by simp)

theorem equalLenStage_score_bounds {a b : List Char} {r : SimResult}
    (h : equalLenStage a b = some r) : (7/10 : ℚ) ≤ r.score ∧ r.score ≤ 1 := by
  unfold equalLenStage at h
  dsimp only at h
  split at h
  · split at h
    · injection h with h'
      subst h'
      exact ⟨le_max_left _ _, max_le (by norm_num) (one_sub_div_le_one _ _)⟩
    · exact absurd h (by simp)
  · exact absurd h (by simp)

theorem substrStage_score_bounds {a b : List Char} {r : SimResult}
    (h : substrStage a b = some r) : (7/10 : ℚ) ≤ r.score ∧ r.score ≤ 1 := by
  unfold substrStage at h
  split at h
  · split at h
    · split at h
      case isTrue hr =>
        injection h with h'
        subst h'
        refine ⟨le_trans (by norm_num) hr, ?_⟩
        by_cases hlen : (shorterNum a b).length = 0
        · rw [alignRatio, hlen] at hr
          norm_num at hr
        · rw [alignRatio] at hr ⊢
          rw [div_le_one (by positivity)]
          exact_mod_cast maxAlignMatches_le _ _
      · exact absurd h (by simp)
    · exact absurd h (by simp)
  · exact absurd h (by simp)

/-- Claim C10: whenever the extended scorer returns a result, the score is
in the closed interval [0.7, 1]: the suffix and equal-length rules clamp
from below at 0.7, and the alignment fallback only returns ratios of at
least 0.85 and at most 1, so every returned result already meets the 0.7
proposal threshold. -/
theorem calcSimilarity_score_in_range (t1 t2 : List Char) (r : SimResult)
    (h : calcSimilarity t1 t2 = some r) : (7/10 : ℚ) ≤ r.score ∧ r.score ≤ 1 := by
  unfold calcSimilarity at h
  dsimp only at h
  cases hs : suffixStage (numericPart t1) (numericPart t2) with
  | some r' =>
    rw [hs] at h
    dsimp only at h
    injection h with h'
    exact h' ▸ suffixStage_score_bounds hs
  | none =>
    rw [hs] at h
    dsimp only at h
    cases he : equalLenStage (numericPart t1) (numericPart t2) with
    | some r' =>
      rw [he] at h
      dsimp only at h
      injection h with h'
      exact h' ▸ equalLenStage_score_bounds he
    | none =>
      rw [he] at h
      dsimp only at h
      exact substrStage_score_bounds h

/-- Witness for C10 at a concrete instance: the result returned for
`"2M000000000123"` vs `"2M000000000124"` (score 1 − 1/14 = 13/14) has its
score in [0.7, 1]. -/
theorem calcSimilarity_score_in_range_witness :
    (7/10 : ℚ) ≤
      (SimResult.mk (max ((7:ℚ)/10) (1 - ((1:ℕ):ℚ)/((14:ℕ):ℚ))) (.equalLen 1 0)).score ∧
    (SimResult.mk (max ((7:ℚ)/10) (1 - ((1:ℕ):ℚ)/((14:ℕ):ℚ))) (.equalLen 1 0)).score ≤ 1 :=
  calcSimilarity_score_in_range "2M000000000123".toList "2M000000000124".toList
    ⟨max ((7:ℚ)/10) (1 - ((1:ℕ):ℚ)/((14:ℕ):ℚ)), .equalLen 1 0⟩ rfl

/-! ## Similarity scorer: alignment fallback (C5) -/

/-- Counterexample to claim C5: for the digit strings `"1234567"` (7
digits) and `"12345607"` (8 digits) the suffix-anchored and equal-length
rules both fail and the numeric lengths differ, and the best alignment
offset matches 6 of 7 characters — a ratio of 6/7 ≈ 0.857 ≥ 0.85 — yet the
scorer returns no result: the shorter string is not a substring of the
longer one and is shorter than 10 characters, so the alignment is never
attempted, a precondition the claim omits. -/
theorem c5_counterexample :
    suffixStage (numericPart "1234567".toList) (numericPart "12345607".toList) = none ∧
    equalLenStage (numericPart "1234567".toList) (numericPart "12345607".toList) = none ∧
    (numericPart "1234567".toList).length ≠ (numericPart "12345607".toList).length ∧
    (85/100 : ℚ) ≤
      alignRatio
        (shorterNum (numericPart "1234567".toList) (numericPart "12345607".toList))
        (longerNum (numericPart "1234567".toList) (numericPart "12345607".toList)) ∧
    calcSimilarity "1234567".toList "12345607".toList = none := by
  refine ⟨by decide, by decide, by decide, ?_, by decide⟩
  rw [show alignRatio
      (shorterNum (numericPart "1234567".toList) (numericPart "12345607".toList))
      (longerNum (numericPart "1234567".toList) (numericPart "12345607".toList)) =
    ((6:ℕ):ℚ)/((7:ℕ):ℚ) from rfl]
  norm_num

/-- Amended claim C5: for every pair of codes whose numeric parts have
different lengths and that do not qualify under the suffix-anchored or
equal-length rules, the scorer attempts the alignment *only when* the
shorter numeric string is a contiguous substring of the longer one or has
length at least 10; in that case it accepts — returning the best match
count divided by the shorter length as the score — iff that ratio is at
least 0.85.  When the guard fails it returns no result even if the best
alignment ratio is ≥ 0.85. -/
theorem calcSimilarity_alignment_fallback (t1 t2 : List Char)
    (h1 : suffixStage (numericPart t1) (numericPart t2) = none)
    (h2 : equalLenStage (numericPart t1) (numericPart t2) = none)
    (hne : (numericPart t1).length ≠ (numericPart t2).length) :
    calcSimilarity t1 t2 =
      if (listContains (longerNum (numericPart t1) (numericPart t2))
            (shorterNum (numericPart t1) (numericPart t2)) = true
          ∨ 10 ≤ (shorterNum (numericPart t1) (numericPart t2)).length)
          ∧ (85/100 : ℚ) ≤
            alignRatio (shorterNum (numericPart t1) (numericPart t2))
              (longerNum (numericPart t1) (numericPart t2)) then
        some ⟨alignRatio (shorterNum (numericPart t1) (numericPart t2))
            (longerNum (numericPart t1) (numericPart t2)),
          .substr (maxAlignMatches (shorterNum (numericPart t1) (numericPart t2))
              (longerNum (numericPart t1) (numericPart t2)))
            (shorterNum (numericPart t1) (numericPart t2)).length
            (Nat.dist (numericPart t1).length (numericPart t2).length)⟩
      else none := by
  unfold calcSimilarity
  dsimp only
  rw [h1]
  dsimp only
  rw [h2]
  dsimp only
  unfold substrStage
  rw [if_pos hne]
  by_cases hg : listContains (longerNum (numericPart t1) (numericPart t2))
      (shorterNum (numericPart t1) (numericPart t2)) = true
      ∨ 10 ≤ (shorterNum (numericPart t1) (numericPart t2)).length
  · rw [if_pos hg]
    by_cases hr : (85/100 : ℚ) ≤
        alignRatio (shorterNum (numericPart t1) (numericPart t2))
          (longerNum (numericPart t1) (numericPart t2))
    · rw [if_pos hr, if_pos ⟨hg, hr⟩]
    · rw [if_neg hr, if_neg (fun hc => hr hc.2)]
  · rw [if_neg hg, if_neg (fun hc => hg hc.1)]

/-- Witness for the amended C5 at a concrete instance: `"123456789012"` vs
`"1234567890123"` (12 vs 13 digits) does not qualify under the first two
rules, the shorter is a substring of the longer, and the perfect alignment
ratio 1 ≥ 0.85 yields an accepted result. -/
theorem calcSimilarity_alignment_fallback_witness :
    (suffixStage (numericPart "123456789012".toList)
        (numericPart "1234567890123".toList) = none ∧
      equalLenStage (numericPart "123456789012".toList)
        (numericPart "1234567890123".toList) = none ∧
      (numericPart "123456789012".toList).length ≠
        (numericPart "1234567890123".toList).length) ∧
    calcSimilarity "123456789012".toList "1234567890123".toList =
      (if (listContains
            (longerNum (numericPart "123456789012".toList)
              (numericPart "1234567890123".toList))
            (shorterNum (numericPart "123456789012".toList)
              (numericPart "1234567890123".toList)) = true
          ∨ 10 ≤ (shorterNum (numericPart "123456789012".toList)
              (numericPart "1234567890123".toList)).length)
          ∧ (85/100 : ℚ) ≤
            alignRatio
              (shorterNum (numericPart "123456789012".toList)
                (numericPart "1234567890123".toList))
              (longerNum (numericPart "123456789012".toList)
                (numericPart "1234567890123".toList)) then
        some ⟨alignRatio
            (shorterNum (numericPart "123456789012".toList)
              (numericPart "1234567890123".toList))
            (longerNum (numericPart "123456789012".toList)
              (numericPart "1234567890123".toList)),
          .substr (maxAlignMatches
              (shorterNum (numericPart "123456789012".toList)
                (numericPart "1234567890123".toList))
              (longerNum (numericPart "123456789012".toList)
                (numericPart "1234567890123".toList)))
            (shorterNum (numericPart "123456789012".toList)
              (numericPart "1234567890123".toList)).length
            (Nat.dist (numericPart "123456789012".toList).length
              (numericPart "1234567890123".toList).length)⟩
      else none) :=
  ⟨⟨by decide, by decide, by decide⟩,
    calcSimilarity_alignment_fallback "123456789012".toList "1234567890123".toList
      (by decide) (by decide) (by decide)⟩

/-! ## Similarity scorer: symmetry (C6) -/

theorem hamming_cons (x y : Char) (xs ys : List Char) :
    hamming (x :: xs) (y :: ys) = hamming xs ys + if x ≠ y then 1 else 0 := by
  unfold hamming
  rw [List.zip_cons_cons, List.countP_cons]
  congr 1
  by_cases h : x = y <;> simp [h]

theorem hamming_comm (a b : List Char) : hamming a b = hamming b a := by
  induction a generalizing b with
  | nil => cases b <;> rfl
  | cons x xs ih =>
    cases b with
    | nil => rfl
    | cons y ys =>
      rw [hamming_cons, hamming_cons, ih ys]
      congr 1
      by_cases h : x = y
      · subst h
        rfl
      · have h2 : ¬ y = x := fun hh => h hh.symm
        simp [h, h2]

theorem targetLen_comm (a b : List Char) : targetLen a b = targetLen b a := by
  unfold targetLen
  rw [Nat.min_comm a.length b.length]

theorem suffixStage_comm (a b : List Char) : suffixStage a b = suffixStage b a := by
  unfold suffixStage
  dsimp only
  rw [targetLen_comm b a, Nat.dist_comm b.length a.length,
    hamming_comm (jsDropLastK (jsSliceLast b (targetLen a b)) (min 4 (targetLen a b)))
      (jsDropLastK (jsSliceLast a (targetLen a b)) (min 4 (targetLen a b))),
    Nat.dist_comm (jsDropLastK (jsSliceLast b (targetLen a b)) (min 4 (targetLen a b))).length
      (jsDropLastK (jsSliceLast a (targetLen a b)) (min 4 (targetLen a b))).length,
    Nat.max_comm (jsDropLastK (jsSliceLast b (targetLen a b)) (min 4 (targetLen a b))).length
      (jsDropLastK (jsSliceLast a (targetLen a b)) (min 4 (targetLen a b))).length]
  by_cases h3 : 3 ≤ min 4 (targetLen a b)
  · rw [if_pos h3, if_pos h3]
    by_cases hlast : jsSliceLast (jsSliceLast a (targetLen a b)) (min 4 (targetLen a b)) =
        jsSliceLast (jsSliceLast b (targetLen a b)) (min 4 (targetLen a b))
    · rw [if_pos hlast, if_pos hlast.symm]
    · rw [if_neg hlast, if_neg (fun hh => hlast hh.symm)]
  · rw [if_neg h3, if_neg h3]

theorem equalLenStage_comm (a b : List Char) : equalLenStage a b = equalLenStage b a := by
  unfold equalLenStage
  dsimp only
  rw [targetLen_comm b a, Nat.dist_comm b.length a.length,
    hamming_comm (jsSliceLast b (targetLen a b)) (jsSliceLast a (targetLen a b))]
  by_cases hlen : (jsSliceLast a (targetLen a b)).length =
      (jsSliceLast b (targetLen a b)).length
  · rw [← hlen]
  · rw [if_neg (fun hh => hlen hh.1), if_neg (fun hh => hlen hh.1.symm)]

theorem shorterNum_comm {a b : List Char} (h : a.length ≠ b.length) :
    shorterNum a b = shorterNum b a ∧ longerNum a b = longerNum b a := by
  unfold shorterNum longerNum
  rcases Nat.lt_or_ge a.length b.length with hlt | hge
  · have hnlt : ¬ b.length < a.length := Nat.not_lt.mpr (Nat.le_of_lt hlt)
    exact ⟨by simp [hlt, hnlt], by simp [hlt, hnlt]⟩
  · have hlt : b.length < a.length := Nat.lt_of_le_of_ne hge (fun hh => h hh.symm)
    have hnlt : ¬ a.length < b.length := Nat.not_lt.mpr hge
    exact ⟨by simp [hlt, hnlt], by simp [hlt, hnlt]⟩

theorem substrStage_comm (a b : List Char) : substrStage a b = substrStage b a := by
  by_cases h : a.length ≠ b.length
  · obtain ⟨hs, hl⟩ := shorterNum_comm h
    unfold substrStage
    rw [if_pos h, if_pos (Ne.symm h), ← hs, ← hl, Nat.dist_comm b.length a.length]
  · unfold substrStage
    rw [if_neg h, if_neg (fun hh => h (Ne.symm hh))]

theorem suffixStageBasic_comm (a b : List Char) :
    suffixStageBasic a b = suffixStageBasic b a := by
  unfold suffixStageBasic
  dsimp only
  rw [hamming_comm (jsDropLastK b 3) (jsDropLastK a 3),
    Nat.dist_comm (jsDropLastK b 3).length (jsDropLastK a 3).length,
    Nat.max_comm (jsDropLastK b 3).length (jsDropLastK a 3).length]
  by_cases h3 : 3 ≤ a.length ∧ 3 ≤ b.length
  · rw [if_pos h3, if_pos (show 3 ≤ b.length ∧ 3 ≤ a.length from ⟨h3.2, h3.1⟩)]
    by_cases hlast : jsSliceLast a 3 = jsSliceLast b 3
    · rw [if_pos hlast, if_pos hlast.symm]
    · rw [if_neg hlast,
        if_neg (show ¬jsSliceLast b 3 = jsSliceLast a 3 from fun hh => hlast hh.symm)]
  · rw [if_neg h3,
      if_neg (show ¬(3 ≤ b.length ∧ 3 ≤ a.length) from fun hh => h3 ⟨hh.2, hh.1⟩)]

theorem equalLenStageBasic_comm (a b : List Char) :
    equalLenStageBasic a b = equalLenStageBasic b a := by
  unfold equalLenStageBasic
  dsimp only
  rw [hamming_comm b a]
  by_cases hlen : a.length = b.length
  · rw [← hlen]
  · rw [if_neg (show ¬(a.length = b.length ∧ 0 < a.length) from fun hh => hlen hh.1),
      if_neg (show ¬(b.length = a.length ∧ 0 < b.length) from fun hh => hlen hh.1.symm)]

/-- Claim C6: both similarity scorer variants are symmetric: swapping the
two codes yields the identical result — either both `none` or the same
score (indeed the same rule data), in particular for the suffix-match
rule. -/
theorem calcSimilarity_comm (t1 t2 : List Char) :
    calcSimilarity t1 t2 = calcSimilarity t2 t1 ∧
    calcSimilarityBasic t1 t2 = calcSimilarityBasic t2 t1 := by
  constructor
  · unfold calcSimilarity
    dsimp only
    rw [suffixStage_comm (numericPart t2) (numericPart t1),
      equalLenStage_comm (numericPart t2) (numericPart t1),
      substrStage_comm (numericPart t2) (numericPart t1)]
  · unfold calcSimilarityBasic
    dsimp only
    rw [suffixStageBasic_comm (numericPart t2) (numericPart t1),
      equalLenStageBasic_comm (numericPart t2) (numericPart t1)]

end Warehouse
